import Mathlib

/-
Verification of the dealership-inventory-tracker core against its design
specification.

The development shallowly embeds the two origin modules:

  * scraper.py   -- InventoryScraper: VIN / stock-number extraction from a
                    fetched page, retry with exponential backoff, and the
                    per-page scrape orchestration (ScrapeResult).
  * ga4_client.py -- GA4Client.get_underexposed_pages: paginated metric
                    fetch, row decoding, inclusion/exclusion path filters,
                    threshold filter, recency sort and result-cap truncation.

Machine integers are modelled as Int/Nat (Python integers are unbounded, so
no wrap-around is needed).  Fallible steps are modelled with Option/Except.
Network and HTML-parsing effects are modelled as explicit inputs: an HTTP
response sequence for the retry loop, a batch sequence for the paginated
analytics query, and an already-parsed document structure for extraction.
Configured regular expressions (which are opaque run-time inputs) are
modelled as abstract match functions; the two regexes that are fixed in the
source (the VIN validator and the inventory-year slug pattern) are embedded
concretely.
-/

/-! ## Python string primitives -/

/-- Whitespace characters stripped by Python str.strip() (ASCII subset;
the source only ever strips candidate identifier strings and numeric
strings, for which this subset is exhaustive). -/
def pyIsSpace (c : Char) : Bool :=
  c == ' ' || c == '\t' || c == '\n' || c == '\x0d' || c == '\x0b' || c == '\x0c'

/-- Model of Python str.strip() on a character list: drop leading and
trailing whitespace. -/
def pyStripList (l : List Char) : List Char :=
  ((l.dropWhile pyIsSpace).reverse.dropWhile pyIsSpace).reverse

/-- Model of Python str.strip(). -/
def pyStrip (s : String) : String :=
  String.mk (pyStripList s.data)

/-- Model of Python str.upper() on one character (ASCII case mapping; all
strings upper-cased by the source have already passed an ASCII-only
validator or are treated opaquely). -/
def pyUpperChar (c : Char) : Char :=
  if 97 ≤ c.toNat && c.toNat ≤ 122 then Char.ofNat (c.toNat - 32) else c

/-- Model of Python str.upper(). -/
def pyUpper (s : String) : String :=
  String.mk (s.data.map pyUpperChar)

/-- Digit-run value used by the model of Python int(): all characters must
be decimal digits and at least one must be present. -/
def decimalVal (l : List Char) : Option Nat :=
  if l ≠ [] ∧ l.all Char.isDigit then
    some (l.foldl (fun a c => a * 10 + (c.toNat - 48)) 0)
  else none

/-- Model of Python int(str): strip whitespace, optional sign, decimal
digits; any other shape raises ValueError, modelled as none.  (Underscore
digit grouping is not modelled; no claim depends on it.) -/
def pyInt (s : String) : Option Int :=
  match pyStripList s.data with
  | '+' :: rest => (decimalVal rest).map (fun n => (n : Int))
  | '-' :: rest => (decimalVal rest).map (fun n => -(n : Int))
  | rest => (decimalVal rest).map (fun n => (n : Int))

/-! ## IdentifierValidator (scraper.py `_is_valid_vin`)

The source compiles `_VIN_RE = re.compile(r"^[A-HJ-NPR-Z0-9]{17}$",
re.IGNORECASE)` and tests `bool(_VIN_RE.match(value.strip()))`. -/

/-- One character of the class `[A-HJ-NPR-Z0-9]` under re.IGNORECASE:
the ranges A-H (65-72), J-N (74-78), P (80), R-Z (82-90), their lowercase
images a-h (97-104), j-n (106-110), p (112), r-z (114-122), and the digits
0-9 (48-57). -/
def vinChar (c : Char) : Bool :=
  decide ((65 ≤ c.toNat ∧ c.toNat ≤ 72) ∨ (74 ≤ c.toNat ∧ c.toNat ≤ 78) ∨
    c.toNat = 80 ∨ (82 ≤ c.toNat ∧ c.toNat ≤ 90) ∨
    (97 ≤ c.toNat ∧ c.toNat ≤ 104) ∨ (106 ≤ c.toNat ∧ c.toNat ≤ 110) ∨
    c.toNat = 112 ∨ (114 ≤ c.toNat ∧ c.toNat ≤ 122) ∨
    (48 ≤ c.toNat ∧ c.toNat ≤ 57))

/-- Match of the anchored pattern `^[A-HJ-NPR-Z0-9]{17}$`: in Python re,
`$` also matches just before one trailing newline, so a match is either
exactly 17 class characters, or 17 class characters followed by a single
trailing newline. -/
def vinMatch (t : List Char) : Bool :=
  (decide (t.length = 17) && t.all vinChar) ||
  (decide (t.length = 18) && decide (t.getLast? = some '\n') && (t.take 17).all vinChar)

/-- scraper.py `_is_valid_vin`: strip the value, then match the anchored
VIN pattern. -/
def is_valid_vin (value : String) : Bool :=
  vinMatch (pyStripList value.data)

/-- Spec-side alphabet for claim C6: letters A-Z minus I (73), O (79),
Q (81), case-insensitively (so also a-z minus i (105), o (111), q (113)),
plus digits 0-9. -/
def allowedChar (c : Char) : Bool :=
  decide ((65 ≤ c.toNat ∧ c.toNat ≤ 90 ∧ c.toNat ≠ 73 ∧ c.toNat ≠ 79 ∧ c.toNat ≠ 81) ∨
    (97 ≤ c.toNat ∧ c.toNat ≤ 122 ∧ c.toNat ≠ 105 ∧ c.toNat ≠ 111 ∧ c.toNat ≠ 113) ∨
    (48 ≤ c.toNat ∧ c.toNat ≤ 57))

/-! ## JSON values and the JSON-LD VIN extraction (scraper.py) -/

/-- Decoded JSON values (the result of json.loads on a JSON-LD block).
Numeric payloads are irrelevant to every claim and carried as Int. -/
inductive Json where
  | null : Json
  | bool : Bool → Json
  | num : Int → Json
  | str : String → Json
  | arr : List Json → Json
  | obj : List (String × Json) → Json
deriving Repr

/-- Python dict lookup dict.get(key): first binding wins (keys of a decoded
JSON object are unique, so first occurrence is the binding). -/
def lookupField (kvs : List (String × Json)) (key : String) : Option Json :=
  match kvs with
  | [] => none
  | (k, v) :: rest => if k = key then some v else lookupField rest key

/-- Python iteration `for obj in x` over a decoded JSON value: a list
yields its elements, a dict yields its keys (as strings), a string yields
its one-character substrings; anything else raises TypeError, modelled as
an error. -/
def iterJson : Json → Except String (List Json)
  | Json.arr l => Except.ok l
  | Json.obj kvs => Except.ok (kvs.map (fun kv => Json.str kv.fst))
  | Json.str s => Except.ok (s.data.map (fun c => Json.str (String.mk [c])))
  | _ => Except.error "TypeError: object is not iterable"

/-- Inner candidate probe of `_extract_vin_from_jsonld`: skip non-dict
candidates; over the configured field names in order, take the first field
whose value is a truthy (non-empty) string and whose stripped value passes
`_is_valid_vin`, returned upper-cased.  A field holding an invalid string
falls through to the next field name, exactly as in the source. -/
def probeCandidate (fields : List String) (cand : Json) : Option String :=
  match cand with
  | Json.obj kvs =>
    fields.findSome? (fun fieldName =>
      match lookupField kvs fieldName with
      | some (Json.str s) =>
        if s = "" then none
        else if is_valid_vin (pyStrip s) then some (pyUpper (pyStrip s)) else none
      | _ => none)
  | _ => none

/-- Probe of the candidate sequence obtained by iterating a present
@graph value (`for obj in candidates` over `data["@graph"]`). -/
def graphCandidates (fields : List String) (g : Json) : Except String (Option String) :=
  match iterJson g with
  | Except.ok cands => Except.ok (cands.findSome? (probeCandidate fields))
  | Except.error e => Except.error e

/-- Handling of one JSON-LD block in `_extract_vin_from_jsonld`.  The
block input none models both a script tag without string content and a
JSON decode failure (both `continue` in the source).  A decoded dict is
normalised via `data.get("@graph", [data])`; a decoded list is its own
candidate list; any other decoded value is skipped. -/
def processBlock (fields : List String) : Option Json → Except String (Option String)
  | none => Except.ok none
  | some (Json.obj kvs) =>
    match lookupField kvs "@graph" with
    | some g => graphCandidates fields g
    | none => Except.ok (probeCandidate fields (Json.obj kvs))
  | some (Json.arr l) => Except.ok (l.findSome? (probeCandidate fields))
  | some _ => Except.ok none

/-- scraper.py `_extract_vin_from_jsonld`: scan the JSON-LD blocks in
document order, returning the first VIN found; an iteration TypeError
propagates (it is caught only by the scrape_page parse guard). -/
def extract_vin_from_jsonld (fields : List String) : List (Option Json) → Except String (Option String)
  | [] => Except.ok none
  | b :: bs =>
    match processBlock fields b with
    | Except.error e => Except.error e
    | Except.ok (some v) => Except.ok (some v)
    | Except.ok none => extract_vin_from_jsonld fields bs

/-- scraper.py `_extract_vin_from_text`: the configured pattern search is
modelled abstractly as a function returning the captured group 1 when the
pattern matches; the captured value is stripped, validated and
upper-cased. -/
def extract_vin_from_text (vinTextSearch : String → Option String) (text : String) : Option String :=
  match vinTextSearch text with
  | some g => if is_valid_vin (pyStrip g) then some (pyUpper (pyStrip g)) else none
  | none => none

/-- scraper.py `_extract_stock_number`: first configured pattern that
matches wins; its captured group is stripped then upper-cased, with no
structural validation. -/
def extract_stock_number (stockSearches : List (String → Option String)) (text : String) : Option String :=
  stockSearches.findSome? (fun pat => (pat text).map (fun g => pyUpper (pyStrip g)))

/-! ## DocumentFetcher (scraper.py `_fetch_html`) and scrape orchestration -/

/-- Scraper configuration (the fields the embedded code paths read).
maxRetries is an Int because `int(config["max_retries"])` may be any
Python integer; `range` over a non-positive bound is empty.  The two
configured text regexes are modelled as abstract capture functions. -/
structure ScraperConfig where
  maxRetries : Int
  jsonldVinFields : List String
  vinTextSearch : String → Option String
  stockSearches : List (String → Option String)

/-- Outcome of one `self._session.get(...)` attempt (plus
`raise_for_status`): a body, an HTTP 404, or any other
RequestException (network error, timeout, non-2xx status) carrying the
exception text. -/
inductive HttpResp where
  | ok : String → HttpResp
  | status404 : HttpResp
  | err : String → HttpResp

/-- Result of `_fetch_html`: the body, a PageNotFoundError with its
message, or a terminal RequestException with its message and the wrapped
last underlying failure (`from last_exc`). -/
inductive FetchOut where
  | ok : String → FetchOut
  | notFound : String → FetchOut
  | transportErr : String → Option String → FetchOut
deriving Repr, DecidableEq

/-- The terminal RequestException message built by `_fetch_html`:
`f"All {self._max_retries} attempts failed for {fetch_url}"`. -/
def allFailedMsg (maxRetries : Int) (fetchUrl : String) : String :=
  "All " ++ toString maxRetries ++ " attempts failed for " ++ fetchUrl

/-- Retry loop of `_fetch_html`.  `responses attempt` is the outcome of
the HTTP request issued on loop iteration `attempt` (0-based).  Returns
the outcome together with the number of attempts issued and the list of
back-off sleeps performed, in order.  `rem` is the number of loop
iterations left (`max_retries - attempt`); sleeping happens only when
`attempt < max_retries - 1`, evaluated over Python (mathematical)
integers. -/
def fetchGo (cfg : ScraperConfig) (responses : Nat → HttpResp) (url fetchUrl : String) :
    Nat → Nat → Option String → List Nat → FetchOut × Nat × List Nat
  | 0, attempt, lastExc, sleeps =>
    (FetchOut.transportErr (allFailedMsg cfg.maxRetries fetchUrl) lastExc, attempt, sleeps)
  | rem + 1, attempt, _lastExc, sleeps =>
    match responses attempt with
    | HttpResp.ok body => (FetchOut.ok body, attempt + 1, sleeps)
    | HttpResp.status404 => (FetchOut.notFound ("404 Not Found: " ++ url), attempt + 1, sleeps)
    | HttpResp.err e =>
      if (attempt : Int) < cfg.maxRetries - 1 then
        fetchGo cfg responses url fetchUrl rem (attempt + 1) (some e) (sleeps ++ [2 ^ attempt])
      else
        fetchGo cfg responses url fetchUrl rem (attempt + 1) (some e) sleeps

/-- scraper.py `_fetch_html`: run the `for attempt in range(max_retries)`
loop from attempt 0.  `fetchUrl` is the UTM-augmented URL produced by
`_append_utm` (URL recomposition itself is not modelled; no claim
depends on its string form). -/
def fetch_html (cfg : ScraperConfig) (responses : Nat → HttpResp) (url fetchUrl : String) :
    FetchOut × Nat × List Nat :=
  fetchGo cfg responses url fetchUrl cfg.maxRetries.toNat 0 none []

/-- Parsed-document structure consumed by the extractors: the decoded
JSON-LD script blocks in document order (none = missing/undecodable
content), and the visible text that the text extractors end up searching
(the Vehicle Identification section text when that section is found,
otherwise the whole-page text; the DOM walk that selects it is not
modelled, only its resulting string). -/
structure Soup where
  jsonldBlocks : List (Option Json)
  text : String

/-- Combined VIN extraction in scrape_page: JSON-LD first, the text
fallback only when the structured path yields nothing. -/
def extract_vin (cfg : ScraperConfig) (soup : Soup) : Except String (Option String) :=
  match extract_vin_from_jsonld cfg.jsonldVinFields soup.jsonldBlocks with
  | Except.error e => Except.error e
  | Except.ok (some v) => Except.ok (some v)
  | Except.ok none => Except.ok (extract_vin_from_text cfg.vinTextSearch soup.text)

/-- scraper.py ScrapeResult.  The wall-clock field scraped_at is not
modelled.  scrape_status is the literal status string used by the
source. -/
structure ScrapeResult where
  full_url : String
  stock_number : Option String
  vin_number : Option String
  scrape_status : String
  error_message : Option String
deriving Repr, DecidableEq

/-- scraper.py `scrape_page`.  `parse html` models `BeautifulSoup(html,
"lxml")`: ok gives the parsed document, error a parse-time fault message.
A fault raised inside the extraction code (e.g. a TypeError from
iterating a non-iterable @graph value) is caught by the same
`except Exception` guard and downgraded to a failed outcome. -/
def scrape_page (cfg : ScraperConfig) (responses : Nat → HttpResp)
    (parse : String → Except String Soup) (url fetchUrl : String) : ScrapeResult :=
  match (fetch_html cfg responses url fetchUrl).1 with
  | FetchOut.notFound m =>
    { full_url := url, stock_number := none, vin_number := none,
      scrape_status := "not_found", error_message := some m }
  | FetchOut.transportErr m _ =>
    { full_url := url, stock_number := none, vin_number := none,
      scrape_status := "failed", error_message := some m }
  | FetchOut.ok html =>
    match parse html with
    | Except.error e =>
      { full_url := url, stock_number := none, vin_number := none,
        scrape_status := "failed", error_message := some ("Parse error: " ++ e) }
    | Except.ok soup =>
      match extract_vin cfg soup with
      | Except.error e =>
        { full_url := url, stock_number := none, vin_number := none,
          scrape_status := "failed", error_message := some ("Parse error: " ++ e) }
      | Except.ok vin =>
        { full_url := url, stock_number := extract_stock_number cfg.stockSearches soup.text,
          vin_number := vin, scrape_status := "success", error_message := none }

/-! ## GA4Client.get_underexposed_pages (ga4_client.py) -/

/-- ga4_client.py `_PAGE_SIZE`. -/
def PAGE_SIZE : Nat := 10000

/-- One row of a RunReportResponse: dimension values and metric values as
returned by the API (strings). -/
structure GARow where
  dimensionValues : List String
  metricValues : List String
deriving Repr, DecidableEq

/-- One RunReportResponse: its rows and the server-reported total row
count across all pages. -/
structure GAResponse where
  rows : List GARow
  rowCount : Nat
deriving Repr, DecidableEq

/-- One output element: `{"page_path": ..., "page_views": ...}`. -/
structure PageMetric where
  pagePath : String
  pageViews : Int
deriving Repr, DecidableEq

/-- A configured path regex is modelled as its match-at-position
predicate: `p s i` holds when the pattern matches the text `s` starting
at position `i`. -/
abbrev PathPattern := String → Nat → Bool

/-- re.Pattern.match: the pattern must match starting at position 0. -/
def reMatch (p : PathPattern) (s : String) : Bool := p s 0

/-- re.Pattern.search: the pattern matches starting at some position
(including the end-of-string position, where an empty match is
possible). -/
def reSearch (p : PathPattern) (s : String) : Bool :=
  (List.range (s.length + 1)).any (fun i => p s i)

/-- GA4 client configuration: pageview threshold, result cap, optional
inclusion pattern (page_path_pattern) and optional exclusion pattern
(page_path_exclude_pattern).  threshold and maxResults are Ints because
`int(config[...])` may be any Python integer. -/
structure GAConfig where
  threshold : Int
  maxResults : Int
  pagePathRe : Option PathPattern
  pagePathExcludeRe : Option PathPattern

/-- Row decode in the batch loop: `page_path = row.dimension_values[0].value`
and `page_views = int(row.metric_values[0].value)`; an IndexError or
ValueError skips the row (none). -/
def parseRow (row : GARow) : Option (String × Int) :=
  match row.dimensionValues with
  | [] => none
  | p :: _ =>
    match row.metricValues with
    | [] => none
    | v :: _ => (pyInt v).map (fun n => (p, n))

/-- Per-row retention test, after decoding: the inclusion pattern (when
configured) must match from the start of the path, the exclusion pattern
(when configured) must not match anywhere, and the view count must be
strictly below the threshold. -/
def keepRow (cfg : GAConfig) (path : String) (views : Int) : Bool :=
  (match cfg.pagePathRe with
   | some p => reMatch p path
   | none => true) &&
  (match cfg.pagePathExcludeRe with
   | some p => !reSearch p path
   | none => true) &&
  decide (views < cfg.threshold)

/-- Rows retained from one batch, in order (`continue` on decode failure
or a failed filter). -/
def processRows (cfg : GAConfig) (rows : List GARow) : List PageMetric :=
  rows.filterMap (fun r =>
    match parseRow r with
    | some (p, v) => if keepRow cfg p v then some { pagePath := p, pageViews := v } else none
    | none => none)

/-- The `while True` pagination loop of get_underexposed_pages, with an
explicit fuel bound: none means the loop performs more than `fuel`
iterations (in particular, a diverging loop yields none for every fuel).
`server offset` is the RunReportResponse for the request at that offset.
Each iteration: fetch the batch; stop on an empty batch; append the
retained rows; advance the offset by the batch size; stop when the
offset reaches the total reported by this response. -/
def gaLoop (cfg : GAConfig) (server : Nat → GAResponse) :
    Nat → Nat → List PageMetric → Option (List PageMetric)
  | 0, _, _ => none
  | fuel + 1, offset, acc =>
    let resp := server offset
    if resp.rows.length = 0 then some acc
    else
      let acc2 := acc ++ processRows cfg resp.rows
      let offset2 := offset + resp.rows.length
      if resp.rowCount ≤ offset2 then some acc2
      else gaLoop cfg server fuel offset2 acc2

/-- ga4_client.py `_slug_year` support: try to read the fixed marker
`/inventory/` followed by exactly four digits and a hyphen at the head of
`l`; on success return the remainder after the marker for digit
checks. -/
def dropMarker : List Char → List Char → Option (List Char)
  | [], rest => some rest
  | _, [] => none
  | p :: ps, c :: cs => if p = c then dropMarker ps cs else none

/-- Match of `/inventory/(\d{4})-` anchored at the head of `l`, returning
the captured year value. -/
def yearAt (l : List Char) : Option Nat :=
  match dropMarker "/inventory/".data l with
  | some (a :: b :: c :: d :: e :: _) =>
    if a.isDigit && b.isDigit && c.isDigit && d.isDigit && e == '-' then
      some ((a.toNat - 48) * 1000 + (b.toNat - 48) * 100 + (c.toNat - 48) * 10 + (d.toNat - 48))
    else none
  | _ => none

/-- Leftmost match scan of re.search for the slug-year pattern. -/
def slugYearList : List Char → Nat
  | [] => 0
  | c :: rest =>
    match yearAt (c :: rest) with
    | some y => y
    | none => slugYearList rest

/-- ga4_client.py `_slug_year`: the vehicle year embedded in an inventory
page path, or 0 when the pattern is absent. -/
def slug_year (s : String) : Nat := slugYearList s.data

/-- Stable descending-by-year insertion used to model Python
list.sort(key=_slug_year, reverse=True): an element is inserted after
every element with a strictly greater key and after no element with a
smaller-or-equal key, preserving original order among equal keys. -/
def insertDesc (x : PageMetric) : List PageMetric → List PageMetric
  | [] => [x]
  | y :: ys =>
    if slug_year x.pagePath < slug_year y.pagePath then y :: insertDesc x ys
    else x :: y :: ys

/-- Stable sort descending by `_slug_year` of the page path (Python
list.sort with key and reverse=True is stable, so its output is exactly
the stable descending reordering). -/
def sortDesc : List PageMetric → List PageMetric
  | [] => []
  | x :: xs => insertDesc x (sortDesc xs)

/-- Python slice lst[:n] for an arbitrary integer n (a negative bound
counts from the end, clamped at zero). -/
def pySliceTo (n : Int) (l : List PageMetric) : List PageMetric :=
  if 0 ≤ n then l.take n.toNat else l.take (l.length - (-n).toNat)

/-- ga4_client.py `get_underexposed_pages`: run the pagination loop from
offset 0 with an empty accumulator, sort the retained rows newest
vehicle year first, and truncate to max_results when the retained list
is longer. -/
def get_underexposed_pages (cfg : GAConfig) (server : Nat → GAResponse) (fuel : Nat) :
    Option (List PageMetric) :=
  (gaLoop cfg server fuel 0 []).map (fun acc =>
    let sorted := sortDesc acc
    if cfg.maxResults < (sorted.length : Int) then pySliceTo cfg.maxResults sorted else sorted)

/-! ## Concrete instances used by witnesses and counterexamples -/

/-- The JSON-LD field names configured by default (scraper.py docstring:
vehicleIdentificationNumber, vin, serialNumber). -/
def defaultVinFields : List String :=
  ["vehicleIdentificationNumber", "vin", "serialNumber"]

/-- The structured-data block of the spec scenario:
a JSON-LD object holding a lowercase hyphen-free 17-char identifier. -/
def scenarioBlock : Option Json :=
  some (Json.obj [("vehicleIdentificationNumber", Json.str "1ftfw1et1ekd12345")])

/-- A JSON-LD object whose @graph is an empty list while the top-level
object itself carries a valid identifier field. -/
def emptyGraphKvs : List (String × Json) :=
  [("@graph", Json.arr []),
   ("vehicleIdentificationNumber", Json.str "1FTFW1ET1EKD12345")]

/-- GA4 configuration with no path patterns, threshold 5, cap 10. -/
def gaCfgA : GAConfig :=
  { threshold := 5, maxResults := 10, pagePathRe := none, pagePathExcludeRe := none }

/-- Server whose single row reports a negative metric value. -/
def serverNeg : Nat → GAResponse := fun off =>
  if off = 0 then
    { rows := [{ dimensionValues := ["/inventory/x"], metricValues := ["-1"] }], rowCount := 1 }
  else { rows := [], rowCount := 0 }

/-- Adversarial server for the pagination loop: every batch holds one row
and the reported total always exceeds the offset reached by consuming
it, so the loop never meets either exit condition. -/
def serverGrowing : Nat → GAResponse := fun off =>
  { rows := [{ dimensionValues := ["/x"], metricValues := ["0"] }], rowCount := off + 2 }

/-- Divergence of the embedded pagination loop on `serverGrowing`: no
fuel bound suffices, i.e. the source loop runs forever. -/
def gaLoopDiverges : Prop :=
  ∀ fuel offset acc, gaLoop gaCfgA serverGrowing fuel offset acc = none

/-- An honest GA4 server for total row count T: every response reports
total T and returns min(PAGE_SIZE, T - offset) rows. -/
def honestServer (T : Nat) : Nat → GAResponse := fun off =>
  { rows := List.replicate (min PAGE_SIZE (T - off))
      { dimensionValues := ["/inventory/2020-a-m1/"], metricValues := ["1"] },
    rowCount := T }

/-- Scraper configuration with three retries and no text patterns. -/
def scfgThree : ScraperConfig :=
  { maxRetries := 3, jsonldVinFields := defaultVinFields,
    vinTextSearch := fun _ => none, stockSearches := [] }

/-- Scraper configuration with a zero retry budget. -/
def scfgZero : ScraperConfig :=
  { maxRetries := 0, jsonldVinFields := defaultVinFields,
    vinTextSearch := fun _ => none, stockSearches := [] }

/-- Response sequence that fails every attempt with a distinct
RequestException. -/
def respErr : Nat → HttpResp := fun i => HttpResp.err ("boom" ++ toString i)

/-- Response sequence that returns HTTP 404 immediately. -/
def resp404 : Nat → HttpResp := fun _ => HttpResp.status404

/-- Response sequence that succeeds immediately. -/
def respOk : Nat → HttpResp := fun _ => HttpResp.ok "page"

/-- Parser stub producing a document with no JSON-LD blocks and empty
visible text. -/
def parseEmpty : String → Except String Soup :=
  fun _ => Except.ok { jsonldBlocks := [], text := "" }

/-- Parser stub that always faults. -/
def parseFail : String → Except String Soup :=
  fun _ => Except.error "lxml fault"

/-- GA4 configuration with result cap 1 (forces truncation of two
retained rows). -/
def gaCfgC : GAConfig :=
  { threshold := 5, maxResults := 1, pagePathRe := none, pagePathExcludeRe := none }

/-- Server returning one batch with a 2020 page (1 view) before a 2024
page (2 views), total 2. -/
def serverTwo : Nat → GAResponse := fun off =>
  if off = 0 then
    { rows := [{ dimensionValues := ["/inventory/2020-x"], metricValues := ["1"] },
               { dimensionValues := ["/inventory/2024-x"], metricValues := ["2"] }],
      rowCount := 2 }
  else { rows := [], rowCount := 0 }

/-- Concrete inclusion pattern: matches at position i when i is 0 and
the path starts with /inventory/. -/
def inclPat : PathPattern := fun s i => i == 0 && (s.take 11 == "/inventory/")

/-- Concrete exclusion pattern: matches at position i when the marker
sold occurs there. -/
def exclPat : PathPattern := fun s i => (s.drop i).take 4 == "sold"

/-- GA4 configuration with concrete inclusion and exclusion patterns for
the filter witness: include paths starting with /inventory/, exclude
paths containing the marker sold. -/
def gaCfgD : GAConfig :=
  { threshold := 5, maxResults := 10,
    pagePathRe := some inclPat,
    pagePathExcludeRe := some exclPat }

/-- Server with one retained row and two rows dropped by the patterns. -/
def serverFiltered : Nat → GAResponse := fun off =>
  if off = 0 then
    { rows := [{ dimensionValues := ["/inventory/2020-x"], metricValues := ["1"] },
               { dimensionValues := ["/other/2021-y"], metricValues := ["1"] },
               { dimensionValues := ["/inventory/2022-sold-z"], metricValues := ["1"] }],
      rowCount := 3 }
  else { rows := [], rowCount := 0 }

/-! ## Character-level facts -/

/-- The regex character class of the validator coincides with the
spec alphabet, and on class members: they are not whitespace, and
upper-casing keeps them in the class, is idempotent, and yields no
whitespace. -/
theorem charEnum (c : Char) :
    allowedChar c = vinChar c ∧
    (vinChar c = true →
      pyIsSpace c = false ∧ vinChar (pyUpperChar c) = true ∧
      pyUpperChar (pyUpperChar c) = pyUpperChar c ∧ pyIsSpace (pyUpperChar c) = false) := by
  by_cases h1 : c.toNat < 123
  · obtain ⟨n, hn, hc⟩ : ∃ n, n < 123 ∧ c = Char.ofNat n :=
      ⟨c.toNat, h1, (Char.ofNat_toNat c).symm⟩
    subst hc
    interval_cases n <;> exact (by decide)
  · push_neg at h1
    have hv : vinChar c = false := by
      simp only [vinChar, decide_eq_false_iff_not]
      omega
    have ha : allowedChar c = false := by
      simp only [allowedChar, decide_eq_false_iff_not]
      omega
    rw [hv, ha]
    exact ⟨rfl, by simp⟩

/-! ## Strip lemmas -/

/-- The first element surviving dropWhile falsifies the predicate. -/
theorem headDropWhile {α : Type} (p : α → Bool) :
    ∀ (l : List α) (a : α), (l.dropWhile p).head? = some a → p a = false := by
  intro l
  induction l with
  | nil => intro a h; simp [List.dropWhile] at h
  | cons x xs ih =>
    intro a h
    rw [List.dropWhile_cons] at h
    by_cases hx : p x = true
    · rw [if_pos hx] at h
      exact ih a h
    · rw [if_neg hx] at h
      simp only [List.head?_cons, Option.some.injEq] at h
      subst h
      exact Bool.not_eq_true _ |>.mp hx

/-- dropWhile is the identity when the head falsifies the predicate. -/
theorem dropWhileEqSelf {α : Type} (p : α → Bool) (l : List α)
    (h : ∀ a, l.head? = some a → p a = false) : l.dropWhile p = l := by
  cases l with
  | nil => rfl
  | cons x xs =>
    rw [List.dropWhile_cons, h x rfl]
    simp

/-- The last element surviving dropWhile is the last element of the
original list. -/
theorem getLastDropWhile {α : Type} (p : α → Bool) (l : List α) (a : α)
    (h : (l.dropWhile p).getLast? = some a) : l.getLast? = some a := by
  conv_lhs => rw [← List.takeWhile_append_dropWhile p l]
  rw [List.getLast?_append, h]
  rfl

/-- A stripped list does not end in whitespace. -/
theorem stripNoSpaceLast (l : List Char) :
    ∀ a, (pyStripList l).getLast? = some a → pyIsSpace a = false := by
  intro a h
  unfold pyStripList at h
  rw [List.getLast?_reverse] at h
  exact headDropWhile pyIsSpace _ a h

/-- A stripped list does not start with whitespace. -/
theorem stripNoSpaceHead (l : List Char) :
    ∀ a, (pyStripList l).head? = some a → pyIsSpace a = false := by
  intro a h
  unfold pyStripList at h
  rw [List.head?_reverse] at h
  have h2 := getLastDropWhile pyIsSpace _ a h
  rw [List.getLast?_reverse] at h2
  exact headDropWhile pyIsSpace _ a h2

/-- Stripping a list whose ends are not whitespace is the identity. -/
theorem stripFix (l : List Char)
    (h1 : ∀ a, l.head? = some a → pyIsSpace a = false)
    (h2 : ∀ a, l.getLast? = some a → pyIsSpace a = false) : pyStripList l = l := by
  unfold pyStripList
  rw [dropWhileEqSelf pyIsSpace l h1]
  rw [dropWhileEqSelf pyIsSpace l.reverse (fun a ha => h2 a (by rwa [List.head?_reverse] at ha))]
  exact List.reverse_reverse l

/-- Python strip is idempotent. -/
theorem stripIdem (l : List Char) : pyStripList (pyStripList l) = pyStripList l :=
  stripFix _ (stripNoSpaceHead l) (stripNoSpaceLast l)

/-- Stripping a list containing no whitespace at all is the identity. -/
theorem stripAllNoSpace (l : List Char) (h : ∀ c ∈ l, pyIsSpace c = false) :
    pyStripList l = l :=
  stripFix l (fun a ha => h a (List.mem_of_mem_head? (by rw [ha]; exact rfl)))
    (fun a ha => h a (by
      rw [← List.head?_reverse] at ha
      exact List.mem_reverse.mp (List.mem_of_mem_head? (by rw [ha]; exact rfl))))

/-! ## Validator characterization -/

/-- On a string that does not end in a newline, the anchored VIN pattern
match is exactly: 17 characters, all in the class. -/
theorem vinMatchNoNewline (t : List Char)
    (h : ∀ a, t.getLast? = some a → pyIsSpace a = false) :
    vinMatch t = true ↔ (t.length = 17 ∧ ∀ c ∈ t, vinChar c = true) := by
  unfold vinMatch
  constructor
  · intro hm
    rcases Bool.or_eq_true_iff.mp hm with h1 | h2
    · rcases Bool.and_eq_true_iff.mp h1 with ⟨hl, ha⟩
      exact ⟨of_decide_eq_true hl, List.all_eq_true.mp ha⟩
    · rcases Bool.and_eq_true_iff.mp h2 with ⟨h3, _⟩
      rcases Bool.and_eq_true_iff.mp h3 with ⟨_, hlast⟩
      have := h '\n' (of_decide_eq_true hlast)
      simp [pyIsSpace] at this
  · intro ⟨h1, h2⟩
    apply Bool.or_eq_true_iff.mpr
    left
    exact Bool.and_eq_true_iff.mpr ⟨decide_eq_true h1, List.all_eq_true.mpr h2⟩

/-- `_is_valid_vin` accepts exactly the strings whose stripped form is 17
characters of the VIN class. -/
theorem isValidVinIff (s : String) :
    is_valid_vin s = true ↔
      ((pyStrip s).data.length = 17 ∧ ∀ c ∈ (pyStrip s).data, vinChar c = true) := by
  have hd : (pyStrip s).data = pyStripList s.data := rfl
  rw [hd]
  exact vinMatchNoNewline (pyStripList s.data) (stripNoSpaceLast s.data)

/-- The value returned after a successful validation (the upper-cased
stripped candidate) itself passes the validator, is already upper-case,
and carries no surrounding whitespace. -/
theorem returnedVinProps (s : String) (h : is_valid_vin (pyStrip s) = true) :
    is_valid_vin (pyUpper (pyStrip s)) = true ∧
      pyUpper (pyUpper (pyStrip s)) = pyUpper (pyStrip s) ∧
      pyStrip (pyUpper (pyStrip s)) = pyUpper (pyStrip s) := by
  set t := pyStripList s.data with ht
  have hts : (pyStrip s).data = t := rfl
  have hvm : vinMatch t = true := by
    have : is_valid_vin (pyStrip s) = vinMatch (pyStripList t) := rfl
    rwa [this, stripIdem] at h
  have hchar := (vinMatchNoNewline t (stripNoSpaceLast s.data)).mp hvm
  have hmapchar : ∀ c ∈ t.map pyUpperChar, vinChar c = true := by
    intro c hc
    rcases List.mem_map.mp hc with ⟨a, ha, rfl⟩
    exact ((charEnum a).2 (hchar.2 a ha)).2.1
  have hmapns : ∀ c ∈ t.map pyUpperChar, pyIsSpace c = false := by
    intro c hc
    rcases List.mem_map.mp hc with ⟨a, ha, rfl⟩
    exact ((charEnum a).2 (hchar.2 a ha)).2.2.2
  have hupdata : (pyUpper (pyStrip s)).data = t.map pyUpperChar := rfl
  have hstripfix : pyStripList (t.map pyUpperChar) = t.map pyUpperChar :=
    stripAllNoSpace _ hmapns
  refine ⟨?_, ?_, ?_⟩
  · show vinMatch (pyStripList (t.map pyUpperChar)) = true
    rw [hstripfix]
    apply (vinMatchNoNewline _ ?_).mpr
    · exact ⟨by rw [List.length_map]; exact hchar.1, hmapchar⟩
    · intro a ha
      exact hmapns a (by
        have := List.mem_of_mem_head? (l := (t.map pyUpperChar).reverse)
          (a := a) (by rw [List.head?_reverse, ha]; exact rfl)
        exact List.mem_reverse.mp this)
  · show String.mk ((t.map pyUpperChar).map pyUpperChar) = String.mk (t.map pyUpperChar)
    congr 1
    rw [List.map_map]
    apply List.map_congr_left
    intro a ha
    exact ((charEnum a).2 (hchar.2 a ha)).2.2.1
  · show String.mk (pyStripList (t.map pyUpperChar)) = String.mk (t.map pyUpperChar)
    congr 1

/-- Claim C6: the identifier validator returns true iff the candidate,
after trimming surrounding whitespace, consists of exactly 17 characters
each drawn (case-insensitively) from the letters A-Z excluding I, O and
Q, or the digits 0-9.  (The embedded validator is a pure function by
construction, matching the source, which touches no state.) -/
theorem claim_C6_validator_iff (s : String) :
    is_valid_vin s = true ↔
      ((pyStrip s).length = 17 ∧ ∀ c ∈ (pyStrip s).data, allowedChar c = true) := by
  rw [isValidVinIff]
  have hlen : (pyStrip s).length = (pyStrip s).data.length := rfl
  rw [hlen]
  constructor
  · intro ⟨h1, h2⟩
    exact ⟨h1, fun c hc => by rw [(charEnum c).1]; exact h2 c hc⟩
  · intro ⟨h1, h2⟩
    exact ⟨h1, fun c hc => by rw [← (charEnum c).1]; exact h2 c hc⟩

/-! ## Shape of every value returned by the VIN extractors -/

/-- Any candidate-probe hit is the upper-cased stripped form of some
validated source string. -/
theorem probeShape (fields : List String) (cand : Json) (v : String)
    (h : probeCandidate fields cand = some v) :
    ∃ s, is_valid_vin (pyStrip s) = true ∧ v = pyUpper (pyStrip s) := by
  unfold probeCandidate at h
  split at h
  · rcases List.exists_of_findSome?_eq_some h with ⟨fieldName, _, hf⟩
    split at hf
    · split at hf
      · exact absurd hf (by simp)
      · split at hf
        · next s _ _ hv =>
          exact ⟨s, hv, (Option.some.injEq _ _ |>.mp hf).symm⟩
        · exact absurd hf (by simp)
    · exact absurd hf (by simp)
  · exact absurd h (by simp)

/-- Any JSON-LD block hit is the upper-cased stripped form of some
validated source string. -/
theorem blockShape (fields : List String) (b : Option Json) (v : String)
    (h : processBlock fields b = Except.ok (some v)) :
    ∃ s, is_valid_vin (pyStrip s) = true ∧ v = pyUpper (pyStrip s) := by
  cases b with
  | none => simp [processBlock] at h
  | some data =>
    cases data with
    | obj kvs =>
      rcases hlk : lookupField kvs "@graph" with _ | g
      · simp only [processBlock, hlk, Except.ok.injEq] at h
        exact probeShape fields _ v h
      · simp only [processBlock, hlk] at h
        rcases hit : iterJson g with e | cands
        · simp [graphCandidates, hit] at h
        · simp only [graphCandidates, hit, Except.ok.injEq] at h
          rcases List.exists_of_findSome?_eq_some h with ⟨cand, _, hc⟩
          exact probeShape fields cand v hc
    | arr l =>
      simp only [processBlock, Except.ok.injEq] at h
      rcases List.exists_of_findSome?_eq_some h with ⟨cand, _, hc⟩
      exact probeShape fields cand v hc
    | null => simp [processBlock] at h
    | bool x => simp [processBlock] at h
    | num x => simp [processBlock] at h
    | str x => simp [processBlock] at h

/-- Any structured-data extraction hit is the upper-cased stripped form
of some validated source string. -/
theorem jsonldShape (fields : List String) :
    ∀ (blocks : List (Option Json)) (v : String),
      extract_vin_from_jsonld fields blocks = Except.ok (some v) →
      ∃ s, is_valid_vin (pyStrip s) = true ∧ v = pyUpper (pyStrip s) := by
  intro blocks
  induction blocks with
  | nil => intro v h; exact absurd h (by simp [extract_vin_from_jsonld])
  | cons b bs ih =>
    intro v h
    unfold extract_vin_from_jsonld at h
    split at h
    · exact absurd h (by simp)
    · next w hb =>
      simp only [Except.ok.injEq, Option.some.injEq] at h
      exact h ▸ blockShape fields b w hb
    · exact ih v h

/-- Any text-fallback hit is the upper-cased stripped form of some
validated source string. -/
theorem textShape (vts : String → Option String) (text : String) (v : String)
    (h : extract_vin_from_text vts text = some v) :
    ∃ s, is_valid_vin (pyStrip s) = true ∧ v = pyUpper (pyStrip s) := by
  unfold extract_vin_from_text at h
  split at h
  · split at h
    · next g _ hv =>
      exact ⟨g, hv, (Option.some.injEq _ _ |>.mp h).symm⟩
    · exact absurd h (by simp)
  · exact absurd h (by simp)

/-- Claim C1: any non-absent VIN returned by the extractor passes the
17-character validator, is upper-cased (upper-casing it again changes
nothing) and carries no surrounding whitespace; the JSON-LD path is
probed first and its hit is returned with the text fallback never
consulted; the fallback is consulted exactly when the JSON-LD path
yields nothing; and a JSON-LD block holding the lowercase identifier
1ftfw1et1ekd12345 under vehicleIdentificationNumber yields
1FTFW1ET1EKD12345 for every text content and every configured text
pattern, i.e. without the fallback being evaluated. -/
theorem claim_C1_vin_valid_and_jsonld_first :
    (∀ (cfg : ScraperConfig) (soup : Soup) (v : String),
        extract_vin cfg soup = Except.ok (some v) →
        is_valid_vin v = true ∧ pyUpper v = v ∧ pyStrip v = v) ∧
    (∀ (cfg : ScraperConfig) (soup : Soup) (v : String),
        extract_vin_from_jsonld cfg.jsonldVinFields soup.jsonldBlocks = Except.ok (some v) →
        extract_vin cfg soup = Except.ok (some v)) ∧
    (∀ (cfg : ScraperConfig) (soup : Soup),
        extract_vin_from_jsonld cfg.jsonldVinFields soup.jsonldBlocks = Except.ok none →
        extract_vin cfg soup = Except.ok (extract_vin_from_text cfg.vinTextSearch soup.text)) ∧
    (∀ (cfg : ScraperConfig) (soup : Soup),
        cfg.jsonldVinFields = defaultVinFields →
        soup.jsonldBlocks = [scenarioBlock] →
        extract_vin cfg soup = Except.ok (some "1FTFW1ET1EKD12345")) := by
  refine ⟨?_, ?_, ?_, ?_⟩
  · intro cfg soup v h
    have hshape : ∃ s, is_valid_vin (pyStrip s) = true ∧ v = pyUpper (pyStrip s) := by
      unfold extract_vin at h
      split at h
      · exact absurd h (by simp)
      · next w hw =>
        simp only [Except.ok.injEq, Option.some.injEq] at h
        exact h ▸ jsonldShape cfg.jsonldVinFields soup.jsonldBlocks w hw
      · simp only [Except.ok.injEq] at h
        exact textShape cfg.vinTextSearch soup.text v h
    rcases hshape with ⟨s, hv, rfl⟩
    exact returnedVinProps s hv
  · intro cfg soup v h
    unfold extract_vin
    rw [h]
  · intro cfg soup h
    unfold extract_vin
    rw [h]
  · intro cfg soup hf hb
    unfold extract_vin
    rw [hf, hb,
      show extract_vin_from_jsonld defaultVinFields [scenarioBlock] =
        Except.ok (some "1FTFW1ET1EKD12345") from rfl]

/-- Witness for claim C1: the scenario input drives the theorem at a
concrete document. -/
theorem claim_C1_witness :
    extract_vin scfgThree { jsonldBlocks := [scenarioBlock], text := "" } =
        Except.ok (some "1FTFW1ET1EKD12345") ∧
      is_valid_vin "1FTFW1ET1EKD12345" = true ∧
      pyUpper "1FTFW1ET1EKD12345" = "1FTFW1ET1EKD12345" ∧
      pyStrip "1FTFW1ET1EKD12345" = "1FTFW1ET1EKD12345" := by
  have h := claim_C1_vin_valid_and_jsonld_first.2.2.2 scfgThree
    { jsonldBlocks := [scenarioBlock], text := "" } rfl rfl
  exact ⟨h, claim_C1_vin_valid_and_jsonld_first.1 scfgThree
    { jsonldBlocks := [scenarioBlock], text := "" } "1FTFW1ET1EKD12345" h⟩

/-- Claim C9: when a decoded JSON-LD object contains the key @graph, only
the @graph value determines the extraction outcome for that block (two
objects with the same @graph value are processed identically, so a
top-level identifier field is never examined), and when @graph is an
empty list the block yields no VIN at all. -/
theorem claim_C9_graph_shadows_toplevel :
    (∀ (fields : List String) (kvs kvs2 : List (String × Json)) (g : Json),
        lookupField kvs "@graph" = some g →
        lookupField kvs2 "@graph" = some g →
        processBlock fields (some (Json.obj kvs)) = processBlock fields (some (Json.obj kvs2))) ∧
    (∀ (fields : List String) (kvs : List (String × Json)),
        lookupField kvs "@graph" = some (Json.arr []) →
        processBlock fields (some (Json.obj kvs)) = Except.ok none) := by
  constructor
  · intro fields kvs kvs2 g h1 h2
    simp only [processBlock, h1, h2]
  · intro fields kvs h
    simp only [processBlock, h]
    rfl

/-- Witness for claim C9: an object whose @graph is empty and whose
top-level vehicleIdentificationNumber field holds a valid identifier
still yields nothing, although probing the object directly would find
that identifier. -/
theorem claim_C9_witness :
    lookupField emptyGraphKvs "@graph" = some (Json.arr []) ∧
      processBlock defaultVinFields (some (Json.obj emptyGraphKvs)) = Except.ok none ∧
      probeCandidate defaultVinFields (Json.obj emptyGraphKvs) = some "1FTFW1ET1EKD12345" :=
  ⟨rfl, claim_C9_graph_shadows_toplevel.2 defaultVinFields emptyGraphKvs rfl, rfl⟩

/-! ## Retry loop -/

/-- A string append with a non-empty left part is non-empty. -/
theorem appendNeEmpty (a b : String) (h : a.length ≠ 0) : a ++ b ≠ "" := by
  intro hh
  have h2 := congrArg String.length hh
  rw [String.length_append] at h2
  have h3 : ("" : String).length = 0 := rfl
  omega

/-- The terminal transport message is never empty. -/
theorem allFailedMsgNe (n : Int) (u : String) : allFailedMsg n u ≠ "" := by
  unfold allFailedMsg
  apply appendNeEmpty
  rw [String.length_append, String.length_append]
  have h1 : ("All " : String).length = 4 := rfl
  omega

/-- Behaviour of the retry loop when every issued attempt fails with a
retryable error: it walks through all remaining iterations, sleeping
2 ^ attempt after every failed attempt except the last, and ends with
the terminal transport error wrapping the last failure. -/
theorem fetchGoAllErr (cfg : ScraperConfig) (responses : Nat → HttpResp) (url fetchUrl : String)
    (e : Nat → String) (M : Nat) (hM : cfg.maxRetries = (M : Int))
    (hresp : ∀ i, i < M → responses i = HttpResp.err (e i)) :
    ∀ rem attempt sleeps lastExc, attempt + rem = M → 1 ≤ rem →
      fetchGo cfg responses url fetchUrl rem attempt lastExc sleeps =
        (FetchOut.transportErr (allFailedMsg cfg.maxRetries fetchUrl) (some (e (M - 1))), M,
          sleeps ++ (List.range' attempt (M - 1 - attempt)).map (fun i => 2 ^ i)) := by
  intro rem
  induction rem with
  | zero => intro attempt sleeps lastExc h1 h2; omega
  | succ r ih =>
    intro attempt sleeps lastExc h1 _
    simp only [fetchGo, hresp attempt (by omega)]
    by_cases hc : (attempt : Int) < cfg.maxRetries - 1
    · rw [if_pos hc]
      cases r with
      | zero =>
        exact absurd hc (by rw [hM]; omega)
      | succ r2 =>
        rw [ih (attempt + 1) (sleeps ++ [2 ^ attempt]) (some (e attempt)) (by omega) (by omega)]
        have hk : M - 1 - attempt = (M - 1 - (attempt + 1)) + 1 := by
          rw [hM] at hc
          omega
        rw [hk, List.range'_succ]
        simp
    · rw [if_neg hc]
      have hr : r = 0 := by
        rw [hM] at hc
        omega
      subst hr
      simp only [fetchGo]
      have hA : attempt + 1 = M := by omega
      subst hA
      simp

/-- Claim C3: with a positive retry budget N and every attempt failing
with a retryable transport error, `_fetch_html` issues exactly N
attempts, sleeps 2 ^ i seconds after failed attempt i for
i = 0 .. N - 2 and none after the final attempt, and ends with the
terminal transport error wrapping the last underlying failure; an HTTP
404 on the first attempt raises immediately after exactly one attempt
with no sleep. -/
theorem claim_C3_retry_backoff :
    (∀ (cfg : ScraperConfig) (responses : Nat → HttpResp) (url fetchUrl : String)
        (e : Nat → String),
        1 ≤ cfg.maxRetries →
        (∀ i, i < cfg.maxRetries.toNat → responses i = HttpResp.err (e i)) →
        fetch_html cfg responses url fetchUrl =
          (FetchOut.transportErr (allFailedMsg cfg.maxRetries fetchUrl)
              (some (e (cfg.maxRetries.toNat - 1))),
            cfg.maxRetries.toNat,
            (List.range (cfg.maxRetries.toNat - 1)).map (fun i => 2 ^ i))) ∧
    (∀ (cfg : ScraperConfig) (responses : Nat → HttpResp) (url fetchUrl : String),
        1 ≤ cfg.maxRetries →
        responses 0 = HttpResp.status404 →
        fetch_html cfg responses url fetchUrl =
          (FetchOut.notFound ("404 Not Found: " ++ url), 1, [])) := by
  constructor
  · intro cfg responses url fetchUrl e h1 hresp
    unfold fetch_html
    rw [fetchGoAllErr cfg responses url fetchUrl e cfg.maxRetries.toNat
      (by omega) hresp cfg.maxRetries.toNat 0 [] none (by omega) (by omega)]
    rw [List.range_eq_range']
    simp
  · intro cfg responses url fetchUrl h1 h404
    unfold fetch_html
    rcases hMM : cfg.maxRetries.toNat with _ | m
    · omega
    · simp only [fetchGo, h404]

/-- Witness for claim C3: three attempts, all failing, produce the
terminal error wrapping the third failure after sleeping 1 and 2
seconds; a 404 run stops after one attempt. -/
theorem claim_C3_witness :
    (1 : Int) ≤ scfgThree.maxRetries ∧
      fetch_html scfgThree respErr "u" "v" =
        (FetchOut.transportErr (allFailedMsg 3 "v") (some "boom2"), 3, [1, 2]) ∧
      fetch_html scfgThree resp404 "u" "v" =
        (FetchOut.notFound ("404 Not Found: " ++ "u"), 1, []) := by
  refine ⟨by decide, ?_, ?_⟩
  · have h := claim_C3_retry_backoff.1 scfgThree respErr "u" "v"
      (fun i => "boom" ++ toString i) (by decide) (fun i _ => rfl)
    simpa using h
  · exact claim_C3_retry_backoff.2 scfgThree resp404 "u" "v" (by decide) rfl

/-- Claim C10: with a zero (or negative) retry budget, `_fetch_html`
issues no HTTP attempt at all and immediately raises the terminal
transport error with no wrapped underlying cause, so `scrape_page`
returns a failed outcome with a non-empty error message for any URL. -/
theorem claim_C10_zero_budget (cfg : ScraperConfig) (responses : Nat → HttpResp)
    (parse : String → Except String Soup) (url fetchUrl : String)
    (h : cfg.maxRetries ≤ 0) :
    fetch_html cfg responses url fetchUrl =
        (FetchOut.transportErr (allFailedMsg cfg.maxRetries fetchUrl) none, 0, []) ∧
      (scrape_page cfg responses parse url fetchUrl).scrape_status = "failed" ∧
      (scrape_page cfg responses parse url fetchUrl).error_message =
        some (allFailedMsg cfg.maxRetries fetchUrl) ∧
      allFailedMsg cfg.maxRetries fetchUrl ≠ "" := by
  have h0 : cfg.maxRetries.toNat = 0 := by omega
  have hf : fetch_html cfg responses url fetchUrl =
      (FetchOut.transportErr (allFailedMsg cfg.maxRetries fetchUrl) none, 0, []) := by
    unfold fetch_html
    rw [h0]
    simp only [fetchGo]
  refine ⟨hf, ?_, ?_, allFailedMsgNe cfg.maxRetries fetchUrl⟩
  · unfold scrape_page
    rw [hf]
  · unfold scrape_page
    rw [hf]

/-- Witness for claim C10: the zero-retry configuration fails without
issuing any attempt. -/
theorem claim_C10_witness :
    scfgZero.maxRetries ≤ 0 ∧
      fetch_html scfgZero respOk "u" "v" =
        (FetchOut.transportErr (allFailedMsg 0 "v") none, 0, []) ∧
      (scrape_page scfgZero respOk parseEmpty "u" "v").scrape_status = "failed" := by
  have h := claim_C10_zero_budget scfgZero respOk parseEmpty "u" "v" (by decide)
  exact ⟨by decide, h.1, h.2.1⟩

/-- Every run of the retry loop ends in one of exactly three ways: a
body, the 404 outcome with its fixed message, or the terminal transport
error with its fixed message. -/
theorem fetchGoCases (cfg : ScraperConfig) (responses : Nat → HttpResp) (url fetchUrl : String) :
    ∀ rem attempt lastExc sleeps,
      (∃ b, (fetchGo cfg responses url fetchUrl rem attempt lastExc sleeps).1 = FetchOut.ok b) ∨
      (fetchGo cfg responses url fetchUrl rem attempt lastExc sleeps).1 =
        FetchOut.notFound ("404 Not Found: " ++ url) ∨
      (∃ c, (fetchGo cfg responses url fetchUrl rem attempt lastExc sleeps).1 =
        FetchOut.transportErr (allFailedMsg cfg.maxRetries fetchUrl) c) := by
  intro rem
  induction rem with
  | zero =>
    intro attempt lastExc sleeps
    exact Or.inr (Or.inr ⟨lastExc, rfl⟩)
  | succ r ih =>
    intro attempt lastExc sleeps
    rcases hresp : responses attempt with b | _ | e
    · exact Or.inl ⟨b, by simp only [fetchGo, hresp]⟩
    · exact Or.inr (Or.inl (by simp only [fetchGo, hresp]))
    · simp only [fetchGo, hresp]
      by_cases hc : (attempt : Int) < cfg.maxRetries - 1
      · rw [if_pos hc]; exact ih (attempt + 1) (some e) (sleeps ++ [2 ^ attempt])
      · rw [if_neg hc]; exact ih (attempt + 1) (some e) sleeps

/-- Case analysis of one page scrape: the five terminal shapes of
scrape_page, each with its full result record. -/
theorem scrapePageCases (cfg : ScraperConfig) (responses : Nat → HttpResp)
    (parse : String → Except String Soup) (url fetchUrl : String) :
    (∃ m, (fetch_html cfg responses url fetchUrl).1 = FetchOut.notFound m ∧ m ≠ "" ∧
      scrape_page cfg responses parse url fetchUrl =
        { full_url := url, stock_number := none, vin_number := none,
          scrape_status := "not_found", error_message := some m }) ∨
    (∃ m c, (fetch_html cfg responses url fetchUrl).1 = FetchOut.transportErr m c ∧ m ≠ "" ∧
      scrape_page cfg responses parse url fetchUrl =
        { full_url := url, stock_number := none, vin_number := none,
          scrape_status := "failed", error_message := some m }) ∨
    (∃ html e, (fetch_html cfg responses url fetchUrl).1 = FetchOut.ok html ∧
      parse html = Except.error e ∧
      scrape_page cfg responses parse url fetchUrl =
        { full_url := url, stock_number := none, vin_number := none,
          scrape_status := "failed", error_message := some ("Parse error: " ++ e) }) ∨
    (∃ html soup e, (fetch_html cfg responses url fetchUrl).1 = FetchOut.ok html ∧
      parse html = Except.ok soup ∧ extract_vin cfg soup = Except.error e ∧
      scrape_page cfg responses parse url fetchUrl =
        { full_url := url, stock_number := none, vin_number := none,
          scrape_status := "failed", error_message := some ("Parse error: " ++ e) }) ∨
    (∃ html soup vin, (fetch_html cfg responses url fetchUrl).1 = FetchOut.ok html ∧
      parse html = Except.ok soup ∧ extract_vin cfg soup = Except.ok vin ∧
      scrape_page cfg responses parse url fetchUrl =
        { full_url := url,
          stock_number := extract_stock_number cfg.stockSearches soup.text,
          vin_number := vin, scrape_status := "success", error_message := none }) := by
  rcases fetchGoCases cfg responses url fetchUrl cfg.maxRetries.toNat 0 none [] with
    ⟨b, hf⟩ | hf | ⟨c, hf⟩
  · replace hf : (fetch_html cfg responses url fetchUrl).1 = FetchOut.ok b := hf
    rcases hp : parse b with e | soup
    · refine Or.inr (Or.inr (Or.inl ⟨b, e, hf, hp, ?_⟩))
      unfold scrape_page
      rw [hf]
      simp only [hp]
    · rcases he : extract_vin cfg soup with e | vin
      · refine Or.inr (Or.inr (Or.inr (Or.inl ⟨b, soup, e, hf, hp, he, ?_⟩)))
        unfold scrape_page
        rw [hf]
        simp only [hp, he]
      · refine Or.inr (Or.inr (Or.inr (Or.inr ⟨b, soup, vin, hf, hp, he, ?_⟩)))
        unfold scrape_page
        rw [hf]
        simp only [hp, he]
  · replace hf : (fetch_html cfg responses url fetchUrl).1 =
        FetchOut.notFound ("404 Not Found: " ++ url) := hf
    refine Or.inl ⟨"404 Not Found: " ++ url, hf,
      appendNeEmpty "404 Not Found: " url (by decide), ?_⟩
    unfold scrape_page
    rw [hf]
  · replace hf : (fetch_html cfg responses url fetchUrl).1 =
        FetchOut.transportErr (allFailedMsg cfg.maxRetries fetchUrl) c := hf
    refine Or.inr (Or.inl ⟨allFailedMsg cfg.maxRetries fetchUrl, c, hf,
      allFailedMsgNe cfg.maxRetries fetchUrl, ?_⟩)
    unfold scrape_page
    rw [hf]

/-- Claim C4: scrape_page always returns a result (its embedding is a
total function into ScrapeResult with one of the three statuses); a
not-found fetch yields status not_found, a transport failure yields
status failed, a parse-time fault (from the HTML parser or from the
extraction code) yields status failed, each with a non-empty error
message; otherwise the status is success, with whatever fields the
extractions produced (both may be absent) and no error message. -/
theorem claim_C4_scrape_statuses (cfg : ScraperConfig) (responses : Nat → HttpResp)
    (parse : String → Except String Soup) (url fetchUrl : String) :
    ((scrape_page cfg responses parse url fetchUrl).scrape_status = "success" ∨
      (scrape_page cfg responses parse url fetchUrl).scrape_status = "failed" ∨
      (scrape_page cfg responses parse url fetchUrl).scrape_status = "not_found") ∧
    ((scrape_page cfg responses parse url fetchUrl).scrape_status ≠ "success" →
      ∃ m, (scrape_page cfg responses parse url fetchUrl).error_message = some m ∧ m ≠ "") ∧
    (∀ m, (fetch_html cfg responses url fetchUrl).1 = FetchOut.notFound m →
      (scrape_page cfg responses parse url fetchUrl).scrape_status = "not_found") ∧
    (∀ m c, (fetch_html cfg responses url fetchUrl).1 = FetchOut.transportErr m c →
      (scrape_page cfg responses parse url fetchUrl).scrape_status = "failed") ∧
    (∀ html e, (fetch_html cfg responses url fetchUrl).1 = FetchOut.ok html →
      parse html = Except.error e →
      (scrape_page cfg responses parse url fetchUrl).scrape_status = "failed") ∧
    (∀ html soup vin, (fetch_html cfg responses url fetchUrl).1 = FetchOut.ok html →
      parse html = Except.ok soup → extract_vin cfg soup = Except.ok vin →
      (scrape_page cfg responses parse url fetchUrl).scrape_status = "success" ∧
      (scrape_page cfg responses parse url fetchUrl).vin_number = vin ∧
      (scrape_page cfg responses parse url fetchUrl).stock_number =
        extract_stock_number cfg.stockSearches soup.text ∧
      (scrape_page cfg responses parse url fetchUrl).error_message = none) := by
  rcases scrapePageCases cfg responses parse url fetchUrl with
    ⟨m0, hf, hm0, hres⟩ | ⟨m0, c0, hf, hm0, hres⟩ | ⟨b0, e0, hf, hp0, hres⟩ |
    ⟨b0, soup0, e0, hf, hp0, he0, hres⟩ | ⟨b0, soup0, vin0, hf, hp0, he0, hres⟩
  · refine ⟨Or.inr (Or.inr (by rw [hres])), fun _ => ⟨m0, by rw [hres], hm0⟩,
      fun m hm => by rw [hres], fun m c hmc => ?_, fun html e h1 _ => ?_,
      fun html soup vin h1 _ _ => ?_⟩
    · rw [hf] at hmc; exact FetchOut.noConfusion hmc
    · rw [hf] at h1; exact FetchOut.noConfusion h1
    · rw [hf] at h1; exact FetchOut.noConfusion h1
  · refine ⟨Or.inr (Or.inl (by rw [hres])), fun _ => ⟨m0, by rw [hres], hm0⟩,
      fun m hm => ?_, fun m c hmc => by rw [hres], fun html e h1 _ => ?_,
      fun html soup vin h1 _ _ => ?_⟩
    · rw [hf] at hm; exact FetchOut.noConfusion hm
    · rw [hf] at h1; exact FetchOut.noConfusion h1
    · rw [hf] at h1; exact FetchOut.noConfusion h1
  · refine ⟨Or.inr (Or.inl (by rw [hres])),
      fun _ => ⟨"Parse error: " ++ e0, by rw [hres],
        appendNeEmpty "Parse error: " e0 (by decide)⟩,
      fun m hm => ?_, fun m c hmc => ?_, fun html e h1 _ => by rw [hres],
      fun html soup vin h1 h2 _ => ?_⟩
    · rw [hf] at hm; exact FetchOut.noConfusion hm
    · rw [hf] at hmc; exact FetchOut.noConfusion hmc
    · rw [hf] at h1
      injection h1 with hb
      subst hb
      rw [hp0] at h2
      exact Except.noConfusion h2
  · refine ⟨Or.inr (Or.inl (by rw [hres])),
      fun _ => ⟨"Parse error: " ++ e0, by rw [hres],
        appendNeEmpty "Parse error: " e0 (by decide)⟩,
      fun m hm => ?_, fun m c hmc => ?_, fun html e h1 h2 => ?_,
      fun html soup vin h1 h2 h3 => ?_⟩
    · rw [hf] at hm; exact FetchOut.noConfusion hm
    · rw [hf] at hmc; exact FetchOut.noConfusion hmc
    · rw [hres]
    · rw [hf] at h1
      injection h1 with hb
      subst hb
      rw [hp0] at h2
      injection h2 with hs
      subst hs
      rw [he0] at h3
      exact Except.noConfusion h3
  · refine ⟨Or.inl (by rw [hres]), fun hns => absurd (by rw [hres]) hns,
      fun m hm => ?_, fun m c hmc => ?_, fun html e h1 h2 => ?_,
      fun html soup vin h1 h2 h3 => ?_⟩
    · rw [hf] at hm; exact FetchOut.noConfusion hm
    · rw [hf] at hmc; exact FetchOut.noConfusion hmc
    · rw [hf] at h1
      injection h1 with hb
      subst hb
      rw [hp0] at h2
      exact Except.noConfusion h2
    · rw [hf] at h1
      injection h1 with hb
      subst hb
      rw [hp0] at h2
      injection h2 with hs
      subst hs
      rw [he0] at h3
      injection h3 with hv
      subst hv
      rw [hres]
      exact ⟨rfl, rfl, rfl, rfl⟩

/-- Witness for claim C4: a page that fetches and parses cleanly but
contains neither identifier still scrapes with status success and both
fields absent, and a 404 page yields status not_found with a non-empty
message. -/
theorem claim_C4_witness :
    (scrape_page scfgThree respOk parseEmpty "u" "v").scrape_status = "success" ∧
      (scrape_page scfgThree respOk parseEmpty "u" "v").vin_number = none ∧
      (scrape_page scfgThree respOk parseEmpty "u" "v").stock_number = none ∧
      (scrape_page scfgThree resp404 parseEmpty "u" "v").scrape_status = "not_found" ∧
      (∃ m, (scrape_page scfgThree resp404 parseEmpty "u" "v").error_message = some m ∧
        m ≠ "") := by
  have h1 := (claim_C4_scrape_statuses scfgThree respOk parseEmpty "u" "v").2.2.2.2.2
    "page" { jsonldBlocks := [], text := "" } none rfl rfl rfl
  have h2 := (claim_C4_scrape_statuses scfgThree resp404 parseEmpty "u" "v").2.2.1
    ("404 Not Found: " ++ "u") rfl
  have h3 := (claim_C4_scrape_statuses scfgThree resp404 parseEmpty "u" "v").2.1
    (by rw [h2]; decide)
  exact ⟨h1.1, h1.2.1, h1.2.2.1, h2, h3⟩

/-! ## GA4 loop soundness -/

/-- Every metric produced from a batch comes from a decodable row of
that batch and passed every retention test. -/
theorem processRowsMem (cfg : GAConfig) (rows : List GARow) (m : PageMetric)
    (h : m ∈ processRows cfg rows) :
    ∃ row ∈ rows, parseRow row = some (m.pagePath, m.pageViews) ∧
      keepRow cfg m.pagePath m.pageViews = true := by
  unfold processRows at h
  rcases List.mem_filterMap.mp h with ⟨row, hrow, hf⟩
  split at hf
  · next p v hparse =>
    split at hf
    · next hkeep =>
      refine ⟨row, hrow, ?_, ?_⟩
      · injection hf with hm
        subst hm
        exact hparse
      · injection hf with hm
        subst hm
        exact hkeep
    · exact absurd hf (by simp)
  · exact absurd hf (by simp)

/-- Every metric in a successful loop result is either from the initial
accumulator or a filtered, decoded row of some fetched batch. -/
theorem gaLoopSound (cfg : GAConfig) (server : Nat → GAResponse) :
    ∀ (fuel offset : Nat) (acc res : List PageMetric),
      gaLoop cfg server fuel offset acc = some res →
      ∀ m ∈ res, m ∈ acc ∨
        ∃ off row, row ∈ (server off).rows ∧
          parseRow row = some (m.pagePath, m.pageViews) ∧
          keepRow cfg m.pagePath m.pageViews = true := by
  intro fuel
  induction fuel with
  | zero => intro offset acc res h; exact absurd h (by simp [gaLoop])
  | succ f ih =>
    intro offset acc res h m hm
    simp only [gaLoop] at h
    by_cases h0 : (server offset).rows.length = 0
    · rw [if_pos h0] at h
      injection h with hres
      subst hres
      exact Or.inl hm
    · rw [if_neg h0] at h
      by_cases h1 : (server offset).rowCount ≤ offset + (server offset).rows.length
      · rw [if_pos h1] at h
        injection h with hres
        subst hres
        rcases List.mem_append.mp hm with hacc | hproc
        · exact Or.inl hacc
        · rcases processRowsMem cfg _ m hproc with ⟨row, hrow, hp⟩
          exact Or.inr ⟨offset, row, hrow, hp⟩
      · rw [if_neg h1] at h
        rcases ih _ _ _ h m hm with hacc2 | hfound
        · rcases List.mem_append.mp hacc2 with hacc | hproc
          · exact Or.inl hacc
          · rcases processRowsMem cfg _ m hproc with ⟨row, hrow, hp⟩
            exact Or.inr ⟨offset, row, hrow, hp⟩
        · exact Or.inr hfound

/-! ## Recency sort -/

/-- Membership through descending insertion. -/
theorem memInsertDesc (x : PageMetric) :
    ∀ (l : List PageMetric) (a : PageMetric), a ∈ insertDesc x l ↔ a = x ∨ a ∈ l := by
  intro l
  induction l with
  | nil => intro a; simp [insertDesc]
  | cons y ys ih =>
    intro a
    unfold insertDesc
    by_cases hc : slug_year x.pagePath < slug_year y.pagePath
    · rw [if_pos hc]
      simp only [List.mem_cons, ih]
      tauto
    · rw [if_neg hc]
      simp only [List.mem_cons]

/-- Descending insertion permutes the cons. -/
theorem insertDescPerm (x : PageMetric) :
    ∀ l : List PageMetric, (insertDesc x l).Perm (x :: l) := by
  intro l
  induction l with
  | nil => simp [insertDesc]
  | cons y ys ih =>
    unfold insertDesc
    by_cases hc : slug_year x.pagePath < slug_year y.pagePath
    · rw [if_pos hc]
      exact (ih.cons y).trans (List.Perm.swap x y ys)
    · rw [if_neg hc]

/-- The recency sort permutes its input. -/
theorem sortDescPerm : ∀ l : List PageMetric, (sortDesc l).Perm l := by
  intro l
  induction l with
  | nil => simp [sortDesc]
  | cons x xs ih =>
    unfold sortDesc
    exact (insertDescPerm x (sortDesc xs)).trans (ih.cons x)

/-- Descending insertion preserves the descending-by-year invariant. -/
theorem insertDescPairwise (x : PageMetric) :
    ∀ l : List PageMetric,
      List.Pairwise (fun a b => slug_year b.pagePath ≤ slug_year a.pagePath) l →
      List.Pairwise (fun a b => slug_year b.pagePath ≤ slug_year a.pagePath) (insertDesc x l) := by
  intro l
  induction l with
  | nil => intro _; simp [insertDesc]
  | cons y ys ih =>
    intro hp
    rcases List.pairwise_cons.mp hp with ⟨hy, hys⟩
    unfold insertDesc
    by_cases hc : slug_year x.pagePath < slug_year y.pagePath
    · rw [if_pos hc]
      apply List.pairwise_cons.mpr
      refine ⟨?_, ih hys⟩
      intro a ha
      rcases (memInsertDesc x ys a).mp ha with rfl | hmem
      · exact Nat.le_of_lt hc
      · exact hy a hmem
    · rw [if_neg hc]
      apply List.pairwise_cons.mpr
      refine ⟨?_, hp⟩
      intro a ha
      rcases List.mem_cons.mp ha with rfl | hmem
      · exact Nat.le_of_not_lt hc
      · exact Nat.le_trans (hy a hmem) (Nat.le_of_not_lt hc)

/-- The recency sort output is descending by slug year. -/
theorem sortDescPairwise :
    ∀ l : List PageMetric,
      List.Pairwise (fun a b => slug_year b.pagePath ≤ slug_year a.pagePath) (sortDesc l) := by
  intro l
  induction l with
  | nil => simp [sortDesc]
  | cons x xs ih =>
    unfold sortDesc
    exact insertDescPairwise x (sortDesc xs) ih

/-- A Python slice keeps only elements of the sliced list. -/
theorem pySliceToMem (n : Int) (l : List PageMetric) (m : PageMetric)
    (h : m ∈ pySliceTo n l) : m ∈ l := by
  unfold pySliceTo at h
  split at h
  · exact List.mem_of_mem_take h
  · exact List.mem_of_mem_take h

/-- Every metric returned by get_underexposed_pages is a filtered,
decoded row of some fetched batch. -/
theorem gaGetMem (cfg : GAConfig) (server : Nat → GAResponse) (fuel : Nat)
    (out : List PageMetric) (h : get_underexposed_pages cfg server fuel = some out) :
    ∀ m ∈ out,
      ∃ off row, row ∈ (server off).rows ∧
        parseRow row = some (m.pagePath, m.pageViews) ∧
        keepRow cfg m.pagePath m.pageViews = true := by
  intro m hm
  unfold get_underexposed_pages at h
  rcases hloop : gaLoop cfg server fuel 0 [] with _ | acc
  · rw [hloop] at h; exact absurd h (by simp)
  · rw [hloop] at h
    simp only [Option.map_some'] at h
    injection h with hout
    have hmem : m ∈ sortDesc acc := by
      rw [← hout] at hm
      split at hm
      · exact pySliceToMem cfg.maxResults (sortDesc acc) m hm
      · exact hm
    have hacc : m ∈ acc := ((sortDescPerm acc).mem_iff).mp hmem
    rcases gaLoopSound cfg server fuel 0 [] acc hloop m hacc with hin | hfound
    · exact absurd hin (by simp)
    · exact hfound

/-- Counterexample to claim C2 as stated: a server row whose metric
value decodes to -1 passes the strict threshold filter and is returned
with a negative page_views, so returned view counts are not always
non-negative. -/
theorem claim_C2_counterexample :
    get_underexposed_pages gaCfgA serverNeg 2 =
        some [{ pagePath := "/inventory/x", pageViews := -1 }] ∧
      ¬(0 ≤ ({ pagePath := "/inventory/x", pageViews := -1 } : PageMetric).pageViews) :=
  ⟨rfl, by decide⟩

/-- Claim C2 (amended): every returned element has page_views strictly
below the configured threshold, for every server whatsoever; page_views
is additionally non-negative whenever every decodable server row
carries a non-negative count (the code itself never enforces
non-negativity). -/
theorem claim_C2_amended_threshold (cfg : GAConfig) (server : Nat → GAResponse) (fuel : Nat)
    (out : List PageMetric)
    (h : get_underexposed_pages cfg server fuel = some out) :
    ∀ m ∈ out, m.pageViews < cfg.threshold ∧
      ((∀ off row p v, row ∈ (server off).rows → parseRow row = some (p, v) → 0 ≤ v) →
        0 ≤ m.pageViews) := by
  intro m hm
  rcases gaGetMem cfg server fuel out h m hm with ⟨off, row, hrow, hparse, hkeep⟩
  unfold keepRow at hkeep
  simp only [Bool.and_eq_true, decide_eq_true_eq] at hkeep
  exact ⟨hkeep.2, fun hnn => hnn off row _ _ hrow hparse⟩

/-- Witness for the amended claim C2: a well-formed server with one
1-view page satisfies both bounds, and even the negative-row server of
the counterexample still satisfies the unconditional threshold bound. -/
theorem claim_C2_witness :
    (1 : Int) < gaCfgA.threshold ∧ (0 : Int) ≤ 1 ∧ (-1 : Int) < gaCfgA.threshold := by
  have hnn : ∀ off row p v, row ∈ ((honestServer 1) off).rows →
      parseRow row = some (p, v) → 0 ≤ v := by
    intro off row p v hrow hparse
    have hr := List.eq_of_mem_replicate hrow
    subst hr
    have h0 : parseRow
        { dimensionValues := ["/inventory/2020-a-m1/"], metricValues := ["1"] } =
        some ("/inventory/2020-a-m1/", (1 : Int)) := rfl
    rw [h0] at hparse
    injection hparse with hpv
    have hv : v = 1 := congrArg Prod.snd hpv.symm
    rw [hv]
    decide
  have h1 := claim_C2_amended_threshold gaCfgA (honestServer 1) 1
    [{ pagePath := "/inventory/2020-a-m1/", pageViews := 1 }] rfl
    { pagePath := "/inventory/2020-a-m1/", pageViews := 1 } (by simp)
  have h2 := claim_C2_amended_threshold gaCfgA serverNeg 2
    [{ pagePath := "/inventory/x", pageViews := -1 }] rfl
    { pagePath := "/inventory/x", pageViews := -1 } (by simp)
  exact ⟨h1.1, h1.2 hnn, h2.1⟩

/-- Claim C8: every returned element satisfies both configured path
patterns: the inclusion pattern (when configured) matches at position 0
of the path, and the exclusion pattern (when configured) matches at no
position of the path. -/
theorem claim_C8_path_filters (cfg : GAConfig) (server : Nat → GAResponse) (fuel : Nat)
    (out : List PageMetric) (h : get_underexposed_pages cfg server fuel = some out) :
    ∀ m ∈ out,
      (∀ p, cfg.pagePathRe = some p → p m.pagePath 0 = true) ∧
      (∀ p, cfg.pagePathExcludeRe = some p →
        ∀ i, i ≤ m.pagePath.length → p m.pagePath i = false) := by
  intro m hm
  rcases gaGetMem cfg server fuel out h m hm with ⟨off, row, hrow, hparse, hkeep⟩
  unfold keepRow at hkeep
  simp only [Bool.and_eq_true, decide_eq_true_eq] at hkeep
  obtain ⟨⟨h1, h2⟩, _⟩ := And.intro (And.intro hkeep.1.1 hkeep.1.2) hkeep.2
  constructor
  · intro p hp
    rw [hp] at h1
    exact h1
  · intro p hp i hi
    rw [hp] at h2
    have h3 : reSearch p m.pagePath = false := by
      have h4 : (!reSearch p m.pagePath) = true := h2
      rcases hb : reSearch p m.pagePath with _ | _
      · rfl
      · rw [hb] at h4; exact absurd h4 (by decide)
    have h5 := (List.any_eq_false.mp h3) i (List.mem_range.mpr (by omega))
    exact Bool.not_eq_true _ |>.mp h5

/-- Witness for claim C8: with a begins-with-inventory inclusion pattern
and a sold exclusion pattern, the single surviving row matches the
inclusion at position 0 and the exclusion at no probed position. -/
theorem claim_C8_witness :
    inclPat "/inventory/2020-x" 0 = true ∧ exclPat "/inventory/2020-x" 0 = false ∧
      exclPat "/inventory/2020-x" 17 = false := by
  have h := claim_C8_path_filters gaCfgD serverFiltered 1
    [{ pagePath := "/inventory/2020-x", pageViews := 1 }] rfl
    { pagePath := "/inventory/2020-x", pageViews := 1 } (by simp)
  exact ⟨h.1 inclPat rfl, h.2 exclPat rfl 0 (by decide), h.2 exclPat rfl 17 (by decide)⟩

/-- Claim C5: the returned list is sorted descending by the year parsed
from the path by the /inventory/(YYYY)- marker pattern (0 when absent),
its length never exceeds a non-negative max_results cap, the recency
sort permutes the retained set, and whenever the sorted retained set
exceeds the cap the result is exactly its cap-sized prefix. -/
theorem claim_C5_sort_cap_truncate (cfg : GAConfig) (server : Nat → GAResponse) (fuel : Nat)
    (acc out : List PageMetric)
    (hcap : 0 ≤ cfg.maxResults)
    (hloop : gaLoop cfg server fuel 0 [] = some acc)
    (h : get_underexposed_pages cfg server fuel = some out) :
    List.Pairwise (fun a b => slug_year b.pagePath ≤ slug_year a.pagePath) out ∧
      (out.length : Int) ≤ cfg.maxResults ∧
      (sortDesc acc).Perm acc ∧
      (cfg.maxResults < ((sortDesc acc).length : Int) →
        out = (sortDesc acc).take cfg.maxResults.toNat) := by
  unfold get_underexposed_pages at h
  rw [hloop] at h
  simp only [Option.map_some'] at h
  injection h with hout
  by_cases htr : cfg.maxResults < ((sortDesc acc).length : Int)
  · rw [if_pos htr] at hout
    have hslice : pySliceTo cfg.maxResults (sortDesc acc) =
        (sortDesc acc).take cfg.maxResults.toNat := by
      unfold pySliceTo
      rw [if_pos hcap]
    refine ⟨?_, ?_, sortDescPerm acc, fun _ => by rw [← hout, hslice]⟩
    · rw [← hout, hslice]
      exact List.Pairwise.sublist (List.take_sublist _ _) (sortDescPairwise acc)
    · rw [← hout, hslice]
      have hlen : ((sortDesc acc).take cfg.maxResults.toNat).length =
          min cfg.maxResults.toNat (sortDesc acc).length := List.length_take _ _
      rw [hlen]
      omega
  · rw [if_neg htr] at hout
    refine ⟨?_, ?_, sortDescPerm acc, fun hc => absurd hc htr⟩
    · rw [← hout]
      exact sortDescPairwise acc
    · rw [← hout]
      omega

/-- Witness for claim C5: the two-row scenario (2020 page with 1 view,
2024 page with 2 views) under cap 1 truncates to the 2024 page, the
head of the recency-sorted retained set. -/
theorem claim_C5_witness :
    (0 : Int) ≤ gaCfgC.maxResults ∧
      get_underexposed_pages gaCfgC serverTwo 1 =
        some [{ pagePath := "/inventory/2024-x", pageViews := 2 }] ∧
      List.Pairwise (fun a b => slug_year b.pagePath ≤ slug_year a.pagePath)
        ([{ pagePath := "/inventory/2024-x", pageViews := 2 }] : List PageMetric) ∧
      [({ pagePath := "/inventory/2024-x", pageViews := 2 } : PageMetric)] =
        (sortDesc [{ pagePath := "/inventory/2020-x", pageViews := 1 },
                   { pagePath := "/inventory/2024-x", pageViews := 2 }]).take
          gaCfgC.maxResults.toNat := by
  have h := claim_C5_sort_cap_truncate gaCfgC serverTwo 1
    [{ pagePath := "/inventory/2020-x", pageViews := 1 },
     { pagePath := "/inventory/2024-x", pageViews := 2 }]
    [{ pagePath := "/inventory/2024-x", pageViews := 2 }]
    (by decide) rfl rfl
  exact ⟨by decide, rfl, h.1, h.2.2.2 (by decide)⟩

/-- Counterexample to claim C7 as stated: against a server whose every
batch is non-empty and whose reported total always exceeds the consumed
offset, the pagination loop meets neither exit condition under any fuel
bound, i.e. the source `while True` loop runs forever for this response
sequence. -/
theorem claim_C7_counterexample : gaLoopDiverges := by
  intro fuel
  induction fuel with
  | zero => intro offset acc; rfl
  | succ f ih =>
    intro offset acc
    simp only [gaLoop, serverGrowing, List.length_cons, List.length_nil]
    rw [if_neg (by omega), if_neg (by omega)]
    exact ih (offset + 1) _

/-- Against a constant-total server honouring the page size, the loop
with fuel + 1 iterations available terminates whenever the remaining
rows fit in fuel + 1 batches. -/
theorem gaLoopHonest (cfg : GAConfig) (server : Nat → GAResponse) (T : Nat)
    (hserver : ∀ off, (server off).rowCount = T ∧
      (server off).rows.length = min PAGE_SIZE (T - off)) :
    ∀ fuel offset acc, T ≤ offset + (fuel + 1) * PAGE_SIZE →
      ∃ res, gaLoop cfg server (fuel + 1) offset acc = some res := by
  intro fuel
  induction fuel with
  | zero =>
    intro offset acc hb
    obtain ⟨hrc, hlen⟩ := hserver offset
    by_cases h0 : (server offset).rows.length = 0
    · exact ⟨acc, by simp only [gaLoop]; rw [if_pos h0]⟩
    · by_cases h1 : (server offset).rowCount ≤ offset + (server offset).rows.length
      · exact ⟨acc ++ processRows cfg (server offset).rows,
          by simp only [gaLoop]; rw [if_neg h0, if_pos h1]⟩
      · exfalso
        rw [hlen] at h0
        rw [hrc, hlen] at h1
        unfold PAGE_SIZE at h0 h1 hb
        omega
  | succ f ih =>
    intro offset acc hb
    obtain ⟨hrc, hlen⟩ := hserver offset
    by_cases h0 : (server offset).rows.length = 0
    · exact ⟨acc, by simp only [gaLoop]; rw [if_pos h0]⟩
    · by_cases h1 : (server offset).rowCount ≤ offset + (server offset).rows.length
      · exact ⟨acc ++ processRows cfg (server offset).rows,
          by simp only [gaLoop]; rw [if_neg h0, if_pos h1]⟩
      · have hb2 : T ≤ (offset + (server offset).rows.length) + (f + 1) * PAGE_SIZE := by
          rw [hlen]
          rw [hrc, hlen] at h1
          unfold PAGE_SIZE at *
          omega
        obtain ⟨res, hres⟩ := ih (offset + (server offset).rows.length)
          (acc ++ processRows cfg (server offset).rows) hb2
        exact ⟨res, by simp only [gaLoop]; rw [if_neg h0, if_neg h1]; exact hres⟩

/-- Claim C7 (amended): the pagination loop is not guaranteed to
terminate for every response sequence (see the counterexample), but
against a server that reports one constant total T and fills every
batch to min(PAGE_SIZE, T - offset), it terminates within
max 1 ⌈T / PAGE_SIZE⌉ iterations; and any batch of zero rows stops the
loop immediately, in that single iteration. -/
theorem claim_C7_amended_termination (cfg : GAConfig) (server : Nat → GAResponse) (T : Nat)
    (hserver : ∀ off, (server off).rowCount = T ∧
      (server off).rows.length = min PAGE_SIZE (T - off)) :
    (∃ res, gaLoop cfg server (max 1 ((T + PAGE_SIZE - 1) / PAGE_SIZE)) 0 [] = some res) ∧
    (∀ (server2 : Nat → GAResponse) (offset : Nat) (acc : List PageMetric),
      (server2 offset).rows.length = 0 → gaLoop cfg server2 1 offset acc = some acc) := by
  constructor
  · have hge : 1 ≤ max 1 ((T + PAGE_SIZE - 1) / PAGE_SIZE) := le_max_left 1 _
    obtain ⟨fpred, hf⟩ : ∃ fpred, max 1 ((T + PAGE_SIZE - 1) / PAGE_SIZE) = fpred + 1 :=
      ⟨max 1 ((T + PAGE_SIZE - 1) / PAGE_SIZE) - 1, by omega⟩
    rw [hf]
    apply gaLoopHonest cfg server T hserver fpred 0 []
    rw [← hf]
    unfold PAGE_SIZE
    rcases Nat.le_total ((T + 10000 - 1) / 10000) 1 with hle | hle
    · rw [Nat.max_eq_left hle]
      omega
    · rw [Nat.max_eq_right hle]
      omega
  · intro server2 offset acc h0
    simp only [gaLoop]
    rw [if_pos h0]

/-- Witness for the amended claim C7: an honest three-row server is
exhausted in the single iteration the bound allows. -/
theorem claim_C7_witness :
    ∃ res, gaLoop gaCfgA (honestServer 3) (max 1 ((3 + PAGE_SIZE - 1) / PAGE_SIZE)) 0 [] =
      some res :=
  (claim_C7_amended_termination gaCfgA (honestServer 3) 3
    (fun off => ⟨rfl, by simp [honestServer]⟩)).1
